import Mathlib

/-!
Verification development for the news-researcher pipeline
(`researcher1.py`, `utils.py`): a shallow embedding of the search
aggregator, prompt builder, article generator and markdown-to-blocks
converter, with theorems checking the specification's claims.

Modelling conventions:
* Python strings are Lean `String`s; `str.split('\n')` is
  `String.splitOn "\n"`, `str.strip()` is `String.trim`,
  `str.replace` is `String.replace` (both replace every
  non-overlapping occurrence, scanning left to right),
  `' '.flatten` is `String.intercalate " "`.
* Floating point scores are modelled as `Option ℚ` (only their order
  matters to the code); `None` is `none`.
* The Exa backend is a parameter `backend : String → Except String
  (List SearchResult)`: for a category it either raises (`.error`)
  or returns a result list.  The Streamlit `st.info/warning/error/write`
  calls are observable outputs and are modelled as fields of the
  aggregator's output record.
-/

/-- One Exa search hit, as consumed by `perform_web_research` and
`serialize_search_results`.  Only `url` is mandatory in the source's
data model. -/
structure SearchResult where
  title : Option String
  url : String
  published_date : Option String
  author : Option String
  score : Option ℚ
  text : Option String
  highlights : List String
  highlight_scores : List ℚ
deriving DecidableEq, Repr

/-- Sort key used at `all_results.sort(key=lambda x: x.score if x.score is
not None else 0, reverse=True)`: a missing score counts as 0. -/
def scoreKey (r : SearchResult) : ℚ := r.score.getD 0

/-- Stable descending insertion for `list.sort(..., reverse=True)`:
`x` is placed before the first element whose key is `≤` its own, so that
among equal keys the earlier-discovered element stays first. -/
def insertDesc (x : SearchResult) : List SearchResult → List SearchResult
  | [] => [x]
  | y :: ys => if scoreKey x < scoreKey y then y :: insertDesc x ys else x :: y :: ys

/-- Embedding of Python's stable `list.sort(key=scoreKey, reverse=True)`. -/
def sortByScoreDesc : List SearchResult → List SearchResult
  | [] => []
  | x :: xs => insertDesc x (sortByScoreDesc xs)

/-- The fixed category catalog (`all_categories` in the source). -/
def all_categories : List String :=
  ["company", "research_paper", "news", "tweet", "personal_site", "pdf"]

/-- Embedding of `all_categories if "all" in selected_categories else
selected_categories or all_categories`: Python's `or` falls back to the
full catalog when the selected list is empty. -/
def categoriesToSearch (selected : List String) : List String :=
  if "all" ∈ selected then all_categories
  else if selected = [] then all_categories
  else selected

/-- Mutable loop state of the per-category search loop:
`all_results`, `successful_categories`, `failed_categories`. -/
structure AggState where
  all_results : List SearchResult
  successful_categories : List String
  failed_categories : List String
deriving Repr

/-- One iteration of `for category in categories_to_search`: an exception
from the backend or an empty result list records the category as failed;
a non-empty result list extends `all_results` and records success.  The
`except` clause consumes the error — nothing propagates. -/
def categoryStep (backend : String → Except String (List SearchResult))
    (st : AggState) (category : String) : AggState :=
  match backend category with
  | .ok rs =>
      if rs = [] then
        { st with failed_categories := st.failed_categories ++ [category] }
      else
        { all_results := st.all_results ++ rs
          successful_categories := st.successful_categories ++ [category]
          failed_categories := st.failed_categories }
  | .error _ =>
      { st with failed_categories := st.failed_categories ++ [category] }

/-- The whole category loop, started from empty accumulators. -/
def runCategories (backend : String → Except String (List SearchResult))
    (cats : List String) : AggState :=
  cats.foldl (categoryStep backend) ⟨[], [], []⟩

/-- Does the loop body count this category as a success?  Mirrors
`if result and result.results`. -/
def categorySucceeds (backend : String → Except String (List SearchResult))
    (category : String) : Bool :=
  match backend category with
  | .ok rs => !(rs = [])
  | .error _ => false

/-- The results the loop body extends `all_results` with ( `[]` when the
category failed ). -/
def categoryResults (backend : String → Except String (List SearchResult))
    (category : String) : List SearchResult :=
  match backend category with
  | .ok rs => if rs = [] then [] else rs
  | .error _ => []

/-- The fixed remediation suggestions printed when no category returned
results. -/
def searchSuggestions : List String :=
  ["Try a broader search query",
   "Increase the time window",
   "Select different categories",
   "Check if the query contains any special characters",
   "Try using more general keywords"]

/-- Observable outcome of `perform_web_research`: the returned value
(`results`, `none` for Python's `return None`) together with the
user-facing summary the function emits through Streamlit (the
success/failure category lists and, on total failure, the suggestion
list). -/
structure SearchOutput where
  successful_categories : List String
  failed_categories : List String
  suggestions : List String
  results : Option (List SearchResult)
deriving Repr

/-- Embedding of `perform_web_research` (the category fan-out, merge and
sort; the date-window construction only parameterises the backend and is
absorbed into `backend`). -/
def perform_web_research (backend : String → Except String (List SearchResult))
    (selected_categories : List String) : SearchOutput :=
  let cats := categoriesToSearch selected_categories
  let st := runCategories backend cats
  if st.all_results = [] then
    { successful_categories := st.successful_categories
      failed_categories := st.failed_categories
      suggestions := searchSuggestions
      results := none }
  else
    { successful_categories := st.successful_categories
      failed_categories := st.failed_categories
      suggestions := []
      results := some (sortByScoreDesc st.all_results) }

/-- A concrete search hit used to instantiate the aggregator theorems. -/
def sampleResult : SearchResult :=
  { title := some "sample", url := "https://example.test/a",
    published_date := none, author := none, score := some 1,
    text := some "body", highlights := [], highlight_scores := [] }

/-- A second concrete hit with a lower score. -/
def sampleResult2 : SearchResult :=
  { title := some "sample2", url := "https://example.test/b",
    published_date := none, author := none, score := none,
    text := some "body2", highlights := [], highlight_scores := [] }

/-- Concrete backend: only the news category has results. -/
def newsOnlyBackend : String → Except String (List SearchResult) :=
  fun c => if c = "news" then .ok [sampleResult, sampleResult2] else .ok []

/-- Concrete backend that raises on every category. -/
def failBackend : String → Except String (List SearchResult) :=
  fun _ => .error "backend down"

/-!
Character-list string primitives.  Lean's own `String` operations are
implemented on byte positions and do not reduce inside the kernel, so
every Python string operation the pipeline uses is embedded here as a
structurally recursive function on `List Char` (fuel-driven where the
recursion skips a matched pattern); `String` appears only at the API
boundary of the embedded functions.
-/

/-- Python `str.split(sep)` for a non-empty `sep` (fuel-driven scan;
fuel is one more than the length, enough for the whole input). -/
def splitFuel (sep : List Char) : Nat → List Char → List (List Char)
  | 0, _ => []
  | _ + 1, [] => [[]]
  | fuel + 1, c :: cs =>
    if sep ≠ [] ∧ sep.isPrefixOf (c :: cs) then
      [] :: splitFuel sep fuel ((c :: cs).drop sep.length)
    else
      match splitFuel sep fuel cs with
      | [] => [[c]]
      | t :: ts => (c :: t) :: ts

/-- Python `str.split(sep)`. -/
def pySplit (sep : List Char) (l : List Char) : List (List Char) :=
  splitFuel sep (l.length + 1) l

/-- Python `str.replace(pat, rep)` (all non-overlapping occurrences,
left to right): `rep.flatten(s.split(pat))`. -/
def pyReplace (pat rep : List Char) (l : List Char) : List Char :=
  List.intercalate rep (pySplit pat l)

/-- Strip characters satisfying `p` from both ends (the scheme behind
Python `str.strip()` and `str.strip('"')`). -/
def stripBoth (p : Char → Bool) (l : List Char) : List Char :=
  ((l.dropWhile p).reverse.dropWhile p).reverse

/-- Python `str.strip()` (whitespace at both ends). -/
def pyStrip (l : List Char) : List Char := stripBoth Char.isWhitespace l

/-- Python `str.strip('"')`. -/
def pyStripQuotes (l : List Char) : List Char := stripBoth (fun c => c = '"') l

/-- Python `str.rstrip(')')` as used on citation fragments. -/
def pyRstripParen (l : List Char) : List Char :=
  (l.reverse.dropWhile (fun c => c = ')')).reverse

/-- Python `str.lower()` (the pipeline only ever lowers ASCII). -/
def pyLower (l : List Char) : List Char := l.map Char.toLower

/-- Python `pat in s` (substring containment, `pat` non-empty). -/
def pyContains (pat : List Char) : List Char → Bool
  | [] => pat.isPrefixOf []
  | c :: rest => pat.isPrefixOf (c :: rest) || pyContains pat rest

/-- Python `'\n'.split` of a text into its lines. -/
def linesOf (l : List Char) : List (List Char) := pySplit ['\n'] l

/-!
`extract_metadata` and `generate_article` (the ArticleGenerator).
-/

/-- Loop body of `extract_metadata`: scan stripped lines; a
case-insensitive `Title:` / `Meta Description:` prefix updates the
respective accumulator via a case-SENSITIVE `str.replace` of the prefix,
whitespace strip and `strip('"')`; the loop breaks once both values are
non-empty. -/
def metaLineUpdate (l title meta : List Char) : List Char × List Char :=
  let line := pyStrip l
  if ("title:".data).isPrefixOf (pyLower line) then
    (pyStripQuotes (pyStrip (pyReplace "Title:".data [] line)), meta)
  else if ("meta description:".data).isPrefixOf (pyLower line) then
    (title, pyStripQuotes (pyStrip (pyReplace "Meta Description:".data [] line)))
  else (title, meta)

/-- The loop over lines, breaking once both values are non-empty. -/
def extractMetaLoop : List (List Char) → List Char → List Char → List Char × List Char
  | [], title, meta => (title, meta)
  | l :: ls, title, meta =>
    let next := metaLineUpdate l title meta
    if next.1 ≠ [] ∧ next.2 ≠ [] then next
    else extractMetaLoop ls next.1 next.2

/-- Embedding of `extract_metadata`. -/
def extract_metadata (markdown_text : String) : String × String :=
  let p := extractMetaLoop (linesOf markdown_text.data) [] []
  (⟨p.1⟩, ⟨p.2⟩)

/-- Result of `generate_article` on its success path: the returned
triple plus the number of metadata follow-up calls issued (0 or 1 by
construction — the backfill never recurses). -/
structure GenOutcome where
  article_content : String
  title : String
  meta_description : String
  followup_calls : Nat
deriving Repr, DecidableEq

/-- Embedding of `generate_article`'s success path, parameterised by
the content of the first chat response and of the (at most one)
metadata follow-up response.  When title or meta description is missing
from the first response, exactly one follow-up is consulted and the
still-missing fields keep whatever (possibly empty) value the follow-up
yields; the article is re-headed with the patched metadata.  Transport
failures are outside this model (the source returns `(None, None, None)`
for them without retrying). -/
def generate_article (firstResponse followupResponse : String) : GenOutcome :=
  let p := extract_metadata firstResponse
  if p.1 = "" ∨ p.2 = "" then
    let q := extract_metadata followupResponse
    let title := if p.1 = "" then q.1 else p.1
    let meta := if p.2 = "" then q.2 else p.2
    { article_content := "Title: " ++ title ++ "\nMeta Description: " ++ meta ++
        "\n# " ++ title ++ "\n\n" ++ firstResponse
      title := title
      meta_description := meta
      followup_calls := 1 }
  else
    { article_content := firstResponse
      title := p.1
      meta_description := p.2
      followup_calls := 0 }

/-!
`escape_markdown_characters` and `prepare_content_for_gpt`
(the PromptBuilder).
-/

/-- Single-character pattern replacement, character by character. -/
def replC (pat : Char) (rep : List Char) : List Char → List Char
  | [] => []
  | c :: rest => (if c = pat then rep else [c]) ++ replC pat rep rest

/-- Embedding of `escape_markdown_characters`:
`text.replace('_', '\\_')` then `.replace('*', '\\*')` — a
single-character pattern replace is exactly a character-wise
substitution. -/
def escape_markdown_characters (text : String) : String :=
  ⟨replC '*' ['\\', '*'] (replC '_' ['\\', '_'] text.data)⟩

/-- Modelled from the spec: the inverse direction of the round-trip law
("removing a backslash immediately before `_` or `*`"); the source has
no unescaping function — the spec's round-trip property defines it. -/
def unescapeChars : List Char → List Char
  | [] => []
  | [c] => [c]
  | c :: d :: rest =>
    if c = '\\' ∧ (d = '_' ∨ d = '*') then d :: unescapeChars rest
    else c :: unescapeChars (d :: rest)

/-- String-level wrapper of `unescapeChars`. -/
def unescape_markdown_characters (text : String) : String := ⟨unescapeChars text.data⟩

/-- One serialized search result as fed to `prepare_content_for_gpt`. -/
structure SerializedResult where
  title : String
  url : String
  text : String
deriving Repr, DecidableEq

/-- The fixed instruction line opening every prompt. -/
def promptHeader : String :=
  "Create a markdown article about the researched topic, using the relevant URLs as citations where necessary:\n\n"

/-- The source block emitted for one selected result: escaped title,
raw URL, escaped text. -/
def promptBlock (item : SerializedResult) : String :=
  "Title: " ++ escape_markdown_characters item.title ++ "\nURL: " ++ item.url ++
    "\nText: " ++ escape_markdown_characters item.text ++ "\n\n"

/-- Loop of `prepare_content_for_gpt`: enumerate results 1-based and
append a block (escaping title and text, never the URL) for each
selected position. -/
def prepareLoop (selected : List Nat) : Nat → List SerializedResult → String
  | _, [] => ""
  | i, item :: rest =>
    (if i ∈ selected then
      "Title: " ++ escape_markdown_characters item.title ++ "\nURL: " ++ item.url ++
        "\nText: " ++ escape_markdown_characters item.text ++ "\n\n"
     else "") ++ prepareLoop selected (i + 1) rest

/-- Embedding of `prepare_content_for_gpt`. -/
def prepare_content_for_gpt (results : List SerializedResult)
    (selected_indices : List Nat) : String :=
  promptHeader ++ prepareLoop selected_indices 1 results

/-- 1-based enumeration, used to state what `prepareLoop` emits. -/
def enumFrom {α : Type} : Nat → List α → List (Nat × α)
  | _, [] => []
  | i, x :: xs => (i, x) :: enumFrom (i + 1) xs

/-!
`convert_to_wordpress_blocks` (the BlockConverter).
-/

/-- The anchor `replace_link` builds for one markdown link. -/
def linkAnchor (text url : List Char) : List Char :=
  "<a class=\"general-link\" href=\"".data ++ url ++
    "\" target=\"_blank\" rel=\"noopener\">".data ++ text ++ "</a>".data

/-- Split at the first occurrence of the two-character sequence `](`
(how the lazy group of `\[(.*?)\]\(` terminates). -/
def splitAtBracketParen : List Char → Option (List Char × List Char)
  | [] => none
  | ']' :: '(' :: rest => some ([], rest)
  | c :: rest => (splitAtBracketParen rest).map (fun p => (c :: p.1, p.2))

/-- Split at the first `)` (how the lazy group `(.*?)\)` terminates). -/
def splitAtParen : List Char → Option (List Char × List Char)
  | [] => none
  | ')' :: rest => some ([], rest)
  | c :: rest => (splitAtParen rest).map (fun p => (c :: p.1, p.2))

/-- Fuel-driven scan of `re.sub(r'\[(.*?)\]\((.*?)\)', replace_link, s)`:
at a `[`, the link text runs to the first `](` and the URL to the first
`)` after it; an incomplete link leaves the `[` in place and scanning
resumes at the next character; scanning resumes after a replaced match. -/
def subLinksFuel : Nat → List Char → List Char
  | 0, l => l
  | _ + 1, [] => []
  | fuel + 1, c :: rest =>
    if c = '[' then
      match splitAtBracketParen rest with
      | some (text, rest2) =>
        match splitAtParen rest2 with
        | some (url, rest3) => linkAnchor text url ++ subLinksFuel fuel rest3
        | none => '[' :: subLinksFuel fuel rest
      | none => '[' :: subLinksFuel fuel rest
    else c :: subLinksFuel fuel rest

/-- The markdown-link rewriting pass. -/
def subLinks (l : List Char) : List Char := subLinksFuel l.length l

/-- The citation-opening fragment both `str.replace` calls insert. -/
def citeRep : List Char := "(อ้างอิง: <a class=\"general-link\" href=\"".data

/-- The anchor middle used to split when repairing an unclosed
citation anchor. -/
def citeAnchorMid : List Char := "\" target=\"_blank\" rel=\"noopener\">".data

/-- The inline transform applied when a paragraph is flushed: space-join
the accumulated lines, rewrite markdown links, rewrite `(Source: ` and
`(อ้างอิง: ` citation markers, then (when a citation marker is present
and the text does not already end in `</a>)`) close the first generated
anchor, keeping the visible label inside it and the trailing parenthesis
outside. -/
def formatParagraph (paras : List (List Char)) : List Char :=
  let para1 := subLinks (List.intercalate [' '] paras)
  let para2 := pyReplace "(Source: ".data citeRep para1
  let para3 := pyReplace "(อ้างอิง: ".data citeRep para2
  if pyContains "อ้างอิง:".data para3 ∧ ¬ (("</a>)".data).isSuffixOf para3) then
    match pySplit citeAnchorMid para3 with
    | p0 :: p1 :: _ => p0 ++ citeAnchorMid ++ pyRstripParen p1 ++ "</a>)".data
    | _ => para3
  else para3

/-- A `wp:paragraph` block. -/
def paragraphBlock (content : List Char) : List Char :=
  "<!-- wp:paragraph -->\n<p>".data ++ content ++ "</p>\n<!-- /wp:paragraph -->".data

/-- The level-1 heading block.  The source's f-string
`f'<!-- wp:heading {"level":1} -->...'` formats the expression
`"level"` with format spec `1`, so the emitted opener is literally
`<!-- wp:heading level -->`. -/
def heading1Block (text : List Char) : List Char :=
  "<!-- wp:heading level -->\n<h1 class=\"wp-block-heading\">".data ++ text ++
    "</h1>\n<!-- /wp:heading -->".data

/-- The level-2 heading block. -/
def heading2Block (text : List Char) : List Char :=
  "<!-- wp:heading -->\n<h2 class=\"wp-block-heading\">".data ++ text ++
    "</h2>\n<!-- /wp:heading -->".data

/-- The standalone block emitted for an `Image Prompt:` line. -/
def imagePromptBlock (rest : List Char) : List Char :=
  "<!-- wp:paragraph -->\n<p><strong>Image Prompt:</strong> ".data ++ rest ++
    "</p>\n<!-- /wp:paragraph -->".data

/-- Converter loop state: emitted blocks, paragraph accumulator and the
three metadata accumulators. -/
structure ConvState where
  wp_blocks : List (List Char)
  current_paragraph : List (List Char)
  title : List Char
  meta_description : List Char
  excerpt : List Char
deriving Repr, DecidableEq

/-- The converter's initial state. -/
def initConvState : ConvState := ⟨[], [], [], [], []⟩

/-- One iteration of the converter's line loop, mirroring the source's
`if/elif` chain.  Note the `Meta Description:` branch: the prefix tested
is 17 characters long but the value is sliced with `line[16:]`, keeping
the colon. -/
def processLine (st : ConvState) (rawLine : List Char) : ConvState :=
  let line := pyStrip rawLine
  if ("Title:".data).isPrefixOf line then
    { st with title := pyStrip (line.drop 6) }
  else if ("Meta Description:".data).isPrefixOf line then
    { st with meta_description := pyStrip (line.drop 16) }
  else if ("Excerpt:".data).isPrefixOf line then
    { st with excerpt := pyStrip (line.drop 8) }
  else if ("Image Prompt:".data).isPrefixOf line then
    { st with wp_blocks := st.wp_blocks ++ [imagePromptBlock (pyStrip (line.drop 13))] }
  else if line = [] then
    if st.current_paragraph ≠ [] then
      { st with
          wp_blocks := st.wp_blocks ++ [paragraphBlock (formatParagraph st.current_paragraph)]
          current_paragraph := [] }
    else st
  else if ("# ".data).isPrefixOf line then
    { st with wp_blocks := st.wp_blocks ++ [heading1Block (line.drop 2)] }
  else if ("## ".data).isPrefixOf line then
    let st2 :=
      if st.current_paragraph ≠ [] then
        { st with
            wp_blocks := st.wp_blocks ++ [paragraphBlock (formatParagraph st.current_paragraph)]
            current_paragraph := [] }
      else st
    { st2 with wp_blocks := st2.wp_blocks ++ [heading2Block (line.drop 3)] }
  else
    { st with current_paragraph := st.current_paragraph ++ [line] }

/-- The whole line loop. -/
def processLines (st : ConvState) (ls : List (List Char)) : ConvState :=
  ls.foldl processLine st

/-- The state after the loop, for a given input text. -/
def convertState (markdown_content : String) : ConvState :=
  processLines initConvState (linesOf markdown_content.data)

/-- The end-of-input flush of a still-accumulating paragraph. -/
def finalBlocks (st : ConvState) : List (List Char) :=
  st.wp_blocks ++
    (if st.current_paragraph ≠ [] then
      [paragraphBlock (formatParagraph st.current_paragraph)] else [])

/-- The metadata summary blocks prepended to the output. -/
def metadataBlocks (st : ConvState) : List (List Char) :=
  (if st.title ≠ [] then
    ["<!-- wp:paragraph -->\n<p><strong>Title:</strong> ".data ++ st.title ++
      "</p>\n<!-- /wp:paragraph -->".data] else []) ++
  (if st.meta_description ≠ [] then
    ["<!-- wp:paragraph -->\n<p><strong>Meta Description:</strong> ".data ++
      st.meta_description ++ "</p>\n<!-- /wp:paragraph -->".data] else []) ++
  (if st.excerpt ≠ [] then
    ["<!-- wp:paragraph -->\n<p><strong>Excerpt:</strong> ".data ++ st.excerpt ++
      "</p>\n<!-- /wp:paragraph -->".data] else [])

/-- The content blocks (body blocks) of the conversion, as strings. -/
def convertBlocks (markdown_content : String) : List String :=
  (finalBlocks (convertState markdown_content)).map (fun b => (⟨b⟩ : String))

/-- The metadata summary blocks of the conversion, as strings. -/
def convertMetaBlocks (markdown_content : String) : List String :=
  (metadataBlocks (convertState markdown_content)).map (fun b => (⟨b⟩ : String))

/-- Embedding of `convert_to_wordpress_blocks`: metadata blocks first,
then the content blocks, joined by blank lines. -/
def convert_to_wordpress_blocks (markdown_content : String) : String :=
  let st := convertState markdown_content
  ⟨List.intercalate "\n\n".data (metadataBlocks st ++ finalBlocks st)⟩

/-- Spec-level content-block abstraction used to state the claims. -/
inductive ContentBlock where
  | heading (level : Nat) (text : String)
  | paragraph (richText : String)
  | other (raw : String)
deriving Repr, DecidableEq

/-- Remove a known opener and closer from an emitted block. -/
def stripAffixes (pre suf b : List Char) : List Char :=
  (b.drop pre.length).take (b.length - pre.length - suf.length)

/-- Classify an emitted block string back into a `ContentBlock`. -/
def classifyBlock (b : List Char) : ContentBlock :=
  let h1p := "<!-- wp:heading level -->\n<h1 class=\"wp-block-heading\">".data
  let h1s := "</h1>\n<!-- /wp:heading -->".data
  let h2p := "<!-- wp:heading -->\n<h2 class=\"wp-block-heading\">".data
  let h2s := "</h2>\n<!-- /wp:heading -->".data
  let pp := "<!-- wp:paragraph -->\n<p>".data
  let ps := "</p>\n<!-- /wp:paragraph -->".data
  if h1p.isPrefixOf b ∧ h1s.isSuffixOf b then .heading 1 ⟨stripAffixes h1p h1s b⟩
  else if h2p.isPrefixOf b ∧ h2s.isSuffixOf b then .heading 2 ⟨stripAffixes h2p h2s b⟩
  else if pp.isPrefixOf b ∧ ps.isSuffixOf b then .paragraph ⟨stripAffixes pp ps b⟩
  else .other ⟨b⟩

/-- The blocks a single line makes the converter emit, given the state
it is processed in (used to state the source-order law). -/
def lineEmits (st : ConvState) (rawLine : List Char) : List (List Char) :=
  let line := pyStrip rawLine
  if ("Title:".data).isPrefixOf line then []
  else if ("Meta Description:".data).isPrefixOf line then []
  else if ("Excerpt:".data).isPrefixOf line then []
  else if ("Image Prompt:".data).isPrefixOf line then
    [imagePromptBlock (pyStrip (line.drop 13))]
  else if line = [] then
    if st.current_paragraph ≠ [] then
      [paragraphBlock (formatParagraph st.current_paragraph)]
    else []
  else if ("# ".data).isPrefixOf line then [heading1Block (line.drop 2)]
  else if ("## ".data).isPrefixOf line then
    (if st.current_paragraph ≠ [] then
      [paragraphBlock (formatParagraph st.current_paragraph)] else []) ++
      [heading2Block (line.drop 3)]
  else []

/-- Per-line emissions along the whole run, in source order. -/
def traceEmits : ConvState → List (List Char) → List (List (List Char))
  | _, [] => []
  | st, l :: ls => lineEmits st l :: traceEmits (processLine st l) ls

/-- The C3 example input. -/
def c3Input : String := "Title: Foo\nMeta Description: Bar\n\nHello [link](http://x.test) world\n"

/-- The C6 example input. -/
def c6Input : String := "# T\n\nBody line\n\n## H2\n\nMore body\n"

section AggLemmas

variable (backend : String → Except String (List SearchResult))

theorem categoryStep_successful (st : AggState) (c : String) :
    (categoryStep backend st c).successful_categories =
      st.successful_categories ++ (if categorySucceeds backend c then [c] else []) := by
  unfold categoryStep categorySucceeds
  cases backend c with
  | ok rs => by_cases h : rs = [] <;> simp [h]
  | error e => simp

theorem categoryStep_failed (st : AggState) (c : String) :
    (categoryStep backend st c).failed_categories =
      st.failed_categories ++ (if categorySucceeds backend c then [] else [c]) := by
  unfold categoryStep categorySucceeds
  cases backend c with
  | ok rs => by_cases h : rs = [] <;> simp [h]
  | error e => simp

theorem categoryStep_results (st : AggState) (c : String) :
    (categoryStep backend st c).all_results =
      st.all_results ++ categoryResults backend c := by
  unfold categoryStep categoryResults
  cases backend c with
  | ok rs => by_cases h : rs = [] <;> simp [h]
  | error e => simp

theorem foldl_categoryStep_spec (cats : List String) (st : AggState) :
    (cats.foldl (categoryStep backend) st).successful_categories =
        st.successful_categories ++ cats.filter (categorySucceeds backend) ∧
      (cats.foldl (categoryStep backend) st).failed_categories =
        st.failed_categories ++ cats.filter (fun c => !(categorySucceeds backend c)) ∧
      (cats.foldl (categoryStep backend) st).all_results =
        st.all_results ++ cats.flatMap (categoryResults backend) := by
  induction cats generalizing st with
  | nil => simp
  | cons c cs ih =>
    obtain ⟨ih1, ih2, ih3⟩ := ih (categoryStep backend st c)
    refine ⟨?_, ?_, ?_⟩
    · rw [List.foldl_cons, ih1, categoryStep_successful]
      by_cases h : categorySucceeds backend c <;> simp [h]
    · rw [List.foldl_cons, ih2, categoryStep_failed]
      by_cases h : categorySucceeds backend c <;> simp [h]
    · rw [List.foldl_cons, ih3, categoryStep_results]
      simp

theorem runCategories_successful (cats : List String) :
    (runCategories backend cats).successful_categories =
      cats.filter (categorySucceeds backend) := by
  have h := foldl_categoryStep_spec backend cats ⟨[], [], []⟩
  simpa [runCategories] using h.1

theorem runCategories_failed (cats : List String) :
    (runCategories backend cats).failed_categories =
      cats.filter (fun c => !(categorySucceeds backend c)) := by
  have h := foldl_categoryStep_spec backend cats ⟨[], [], []⟩
  simpa [runCategories] using h.2.1

theorem runCategories_results (cats : List String) :
    (runCategories backend cats).all_results =
      cats.flatMap (categoryResults backend) := by
  have h := foldl_categoryStep_spec backend cats ⟨[], [], []⟩
  simpa [runCategories] using h.2.2

end AggLemmas

section SortLemmas

theorem insertDesc_perm (x : SearchResult) (l : List SearchResult) :
    (insertDesc x l).Perm (x :: l) := by
  induction l with
  | nil => simp [insertDesc]
  | cons y ys ih =>
    unfold insertDesc
    by_cases h : scoreKey x < scoreKey y
    · simp only [h, if_pos]
      exact (List.Perm.cons y ih).trans (List.Perm.swap x y ys)
    · simp [h]

theorem sortByScoreDesc_perm (l : List SearchResult) :
    (sortByScoreDesc l).Perm l := by
  induction l with
  | nil => simp [sortByScoreDesc]
  | cons x xs ih =>
    exact (insertDesc_perm x (sortByScoreDesc xs)).trans (List.Perm.cons x ih)

theorem insertDesc_pairwise (x : SearchResult) (l : List SearchResult)
    (hl : l.Pairwise (fun a b => scoreKey b ≤ scoreKey a)) :
    (insertDesc x l).Pairwise (fun a b => scoreKey b ≤ scoreKey a) := by
  induction l with
  | nil => simp [insertDesc]
  | cons y ys ih =>
    rw [List.pairwise_cons] at hl
    unfold insertDesc
    by_cases h : scoreKey x < scoreKey y
    · simp only [h, if_pos]
      rw [List.pairwise_cons]
      constructor
      · intro a ha
        rcases List.mem_cons.mp (((insertDesc_perm x ys).mem_iff).mp ha) with ha1 | ha1
        · exact ha1 ▸ le_of_lt h
        · exact hl.1 a ha1
      · exact ih hl.2
    · rw [if_neg h]
      push_neg at h
      rw [List.pairwise_cons]
      constructor
      · intro a ha
        rcases List.mem_cons.mp ha with ha1 | ha1
        · exact ha1 ▸ h
        · exact le_trans (hl.1 a ha1) h
      · exact List.Pairwise.cons hl.1 hl.2

theorem sortByScoreDesc_pairwise (l : List SearchResult) :
    (sortByScoreDesc l).Pairwise (fun a b => scoreKey b ≤ scoreKey a) := by
  induction l with
  | nil => simp [sortByScoreDesc]
  | cons x xs ih => exact insertDesc_pairwise x (sortByScoreDesc xs) ih

theorem insertDesc_filter_key (x : SearchResult) (l : List SearchResult) (v : ℚ) :
    (insertDesc x l).filter (fun r => scoreKey r = v) =
      (if scoreKey x = v then [x] else []) ++ l.filter (fun r => scoreKey r = v) := by
  induction l with
  | nil => by_cases h : scoreKey x = v <;> simp [insertDesc, h]
  | cons y ys ih =>
    unfold insertDesc
    by_cases h : scoreKey x < scoreKey y
    · simp only [h, if_pos]
      by_cases hy : scoreKey y = v
      · have hx : ¬ (scoreKey x = v) := by
          intro hx; rw [hx, hy] at h; exact lt_irrefl v h
        simp [List.filter_cons, hy, hx, ih]
      · simp [List.filter_cons, hy, ih]
    · rw [if_neg h]
      by_cases hx : scoreKey x = v <;> by_cases hy : scoreKey y = v <;>
        simp [List.filter_cons, hx, hy]

theorem sortByScoreDesc_stable (l : List SearchResult) (v : ℚ) :
    (sortByScoreDesc l).filter (fun r => scoreKey r = v) =
      l.filter (fun r => scoreKey r = v) := by
  induction l with
  | nil => simp [sortByScoreDesc]
  | cons x xs ih =>
    show (insertDesc x (sortByScoreDesc xs)).filter (fun r => scoreKey r = v) = _
    rw [insertDesc_filter_key, ih]
    by_cases hx : scoreKey x = v <;> simp [List.filter_cons, hx]

end SortLemmas

section AggHelper

variable (backend : String → Except String (List SearchResult))

theorem categoryResults_ne_nil {c : String}
    (h : categorySucceeds backend c = true) : categoryResults backend c ≠ [] := by
  unfold categorySucceeds at h
  unfold categoryResults
  cases hb : backend c with
  | ok rs =>
    rw [hb] at h
    simp only [Bool.not_eq_true'] at h
    have hrs : rs ≠ [] := by
      intro hnil; rw [hnil] at h; simp at h
    simp [hrs]
  | error e => rw [hb] at h; simp at h

theorem categoryResults_eq_nil {c : String}
    (h : categorySucceeds backend c = false) : categoryResults backend c = [] := by
  unfold categorySucceeds at h
  unfold categoryResults
  cases hb : backend c with
  | ok rs =>
    rw [hb] at h
    have hrs : rs = [] := by
      by_contra hne
      simp [hne] at h
    simp [hrs]
  | error e => simp

theorem flatMap_categoryResults_ne_nil {cats : List String} {c : String}
    (hc : c ∈ cats) (h : categorySucceeds backend c = true) :
    cats.flatMap (categoryResults backend) ≠ [] := by
  have hne := categoryResults_ne_nil backend h
  obtain ⟨r, hr⟩ := List.exists_mem_of_ne_nil _ hne
  have : r ∈ cats.flatMap (categoryResults backend) :=
    List.mem_flatMap.mpr ⟨c, hc, hr⟩
  exact List.ne_nil_of_mem this

theorem flatMap_categoryResults_eq_nil {cats : List String}
    (h : ∀ c ∈ cats, categorySucceeds backend c = false) :
    cats.flatMap (categoryResults backend) = [] := by
  induction cats with
  | nil => simp
  | cons c cs ih =>
    rw [List.flatMap_cons, categoryResults_eq_nil backend (h c (by simp)),
      List.nil_append]
    exact ih (fun d hd => h d (List.mem_cons_of_mem c hd))

end AggHelper

/-- C1: for every backend-outcome assignment and every requested category
set, each category of the resolved set is attempted and classified: the
successes are exactly the categories whose backend call returned a
non-empty list, the failures exactly those that raised or came back
empty — so a failure in one category never stops the remaining ones, and
(the embedding being a total function whose backend errors are consumed
by `categoryStep`) no per-category failure escapes the aggregator. -/
theorem search_partial_failure_resilience
    (backend : String → Except String (List SearchResult))
    (selected : List String) :
    (perform_web_research backend selected).successful_categories =
        (categoriesToSearch selected).filter (categorySucceeds backend) ∧
      (perform_web_research backend selected).failed_categories =
        (categoriesToSearch selected).filter
          (fun c => !(categorySucceeds backend c)) ∧
      ∀ c ∈ categoriesToSearch selected,
        (categorySucceeds backend c = false →
          c ∈ (perform_web_research backend selected).failed_categories) ∧
        (categorySucceeds backend c = true →
          c ∈ (perform_web_research backend selected).successful_categories) := by
  have hs : (perform_web_research backend selected).successful_categories =
      (categoriesToSearch selected).filter (categorySucceeds backend) := by
    unfold perform_web_research
    by_cases h : (runCategories backend (categoriesToSearch selected)).all_results = [] <;>
      simp [h, runCategories_successful]
  have hf : (perform_web_research backend selected).failed_categories =
      (categoriesToSearch selected).filter (fun c => !(categorySucceeds backend c)) := by
    unfold perform_web_research
    by_cases h : (runCategories backend (categoriesToSearch selected)).all_results = [] <;>
      simp [h, runCategories_failed]
  refine ⟨hs, hf, fun c hc => ⟨fun hfail => ?_, fun hsucc => ?_⟩⟩
  · rw [hf]
    exact List.mem_filter.mpr ⟨hc, by simp [hfail]⟩
  · rw [hs]
    exact List.mem_filter.mpr ⟨hc, by simp [hsucc]⟩

/-- C2: with at least one successful category, `perform_web_research`
returns the merged per-category results sorted descending on score
(missing score read as 0), the sort being stable: for every score value
the results carrying it appear in their original category-order of
discovery. -/
theorem search_results_sorted_stable
    (backend : String → Except String (List SearchResult))
    (selected : List String) (h1 : selected ≠ [])
    (h2 : ∃ c ∈ categoriesToSearch selected, categorySucceeds backend c = true) :
    ∃ ranked,
      (perform_web_research backend selected).results = some ranked ∧
      ranked.Pairwise (fun a b => scoreKey b ≤ scoreKey a) ∧
      ranked.Perm ((categoriesToSearch selected).flatMap (categoryResults backend)) ∧
      ∀ v : ℚ, ranked.filter (fun r => scoreKey r = v) =
        ((categoriesToSearch selected).flatMap
          (categoryResults backend)).filter (fun r => scoreKey r = v) := by
  obtain ⟨c, hc, hsucc⟩ := h2
  have hmerged : (runCategories backend (categoriesToSearch selected)).all_results =
      (categoriesToSearch selected).flatMap (categoryResults backend) :=
    runCategories_results backend _
  have hne : (runCategories backend (categoriesToSearch selected)).all_results ≠ [] := by
    rw [hmerged]
    exact flatMap_categoryResults_ne_nil backend hc hsucc
  refine ⟨sortByScoreDesc ((categoriesToSearch selected).flatMap (categoryResults backend)),
    ?_, sortByScoreDesc_pairwise _, sortByScoreDesc_perm _, sortByScoreDesc_stable _⟩
  unfold perform_web_research
  simp only [hne, if_neg, hmerged]
  rw [if_neg (hmerged ▸ hne)]

/-- Witness for C2 at a concrete backend and category set. -/
theorem search_results_sorted_stable_witness :
    (["news", "tweet"] : List String) ≠ [] ∧
      (∃ c ∈ categoriesToSearch ["news", "tweet"],
        categorySucceeds newsOnlyBackend c = true) ∧
      ∃ ranked,
        (perform_web_research newsOnlyBackend ["news", "tweet"]).results = some ranked ∧
        ranked.Pairwise (fun a b => scoreKey b ≤ scoreKey a) ∧
        ranked.Perm ((categoriesToSearch ["news", "tweet"]).flatMap
          (categoryResults newsOnlyBackend)) ∧
        ∀ v : ℚ, ranked.filter (fun r => scoreKey r = v) =
          ((categoriesToSearch ["news", "tweet"]).flatMap
            (categoryResults newsOnlyBackend)).filter (fun r => scoreKey r = v) :=
  ⟨by decide, by decide,
    search_results_sorted_stable newsOnlyBackend ["news", "tweet"]
      (by decide) (by decide)⟩

/-- C4: when every resolved category fails (error or empty), the
aggregator returns its failure outcome: no result value, the failed
category list is exactly the whole resolved set, and the fixed non-empty
remediation-suggestion list is emitted. -/
theorem search_exhausted_outcome
    (backend : String → Except String (List SearchResult))
    (selected : List String)
    (h : ∀ c ∈ categoriesToSearch selected, categorySucceeds backend c = false) :
    (perform_web_research backend selected).results = none ∧
      (perform_web_research backend selected).failed_categories =
        categoriesToSearch selected ∧
      (perform_web_research backend selected).suggestions = searchSuggestions ∧
      searchSuggestions ≠ [] := by
  have hmerged : (runCategories backend (categoriesToSearch selected)).all_results = [] := by
    rw [runCategories_results]
    exact flatMap_categoryResults_eq_nil backend h
  have hfail : (runCategories backend (categoriesToSearch selected)).failed_categories =
      categoriesToSearch selected := by
    rw [runCategories_failed]
    exact List.filter_eq_self.mpr (fun c hc => by simp [h c hc])
  refine ⟨?_, ?_, ?_, by decide⟩ <;>
    · unfold perform_web_research
      simp [hmerged, hfail]

/-- Witness for C4: a backend that raises everywhere. -/
theorem search_exhausted_outcome_witness :
    (∀ c ∈ categoriesToSearch ["news", "tweet"],
        categorySucceeds failBackend c = false) ∧
      (perform_web_research failBackend ["news", "tweet"]).results = none ∧
      (perform_web_research failBackend ["news", "tweet"]).failed_categories =
        categoriesToSearch ["news", "tweet"] ∧
      (perform_web_research failBackend ["news", "tweet"]).suggestions =
        searchSuggestions ∧
      searchSuggestions ≠ [] :=
  ⟨by decide, search_exhausted_outcome failBackend ["news", "tweet"] (by decide)⟩

/-- C8 counterexample: called with an empty category set (no ALL
sentinel), the aggregator does NOT fail fast — it substitutes the full
six-category catalog and proceeds, here even returning results found in
the news category. -/
theorem empty_categories_not_fail_fast :
    categoriesToSearch [] = all_categories ∧
      (perform_web_research newsOnlyBackend []).successful_categories = ["news"] ∧
      (perform_web_research newsOnlyBackend []).results ≠ none := by
  refine ⟨by decide, by decide, by decide⟩

/-- C8 amended: an empty category set is silently expanded to the full
catalog and every category of the catalog is attempted (the fail-fast
guard for an empty selection lives in the UI caller, not in
`perform_web_research`); the full catalog is used exactly when ALL is
requested or the set is empty, and otherwise exactly the requested set
is searched. -/
theorem empty_categories_full_catalog
    (backend : String → Except String (List SearchResult))
    (selected : List String) (hne : selected ≠ []) (hnall : "all" ∉ selected) :
    categoriesToSearch selected = selected ∧
      categoriesToSearch ("all" :: selected) = all_categories ∧
      categoriesToSearch [] = all_categories ∧
      (perform_web_research backend []).successful_categories =
        all_categories.filter (categorySucceeds backend) ∧
      (perform_web_research backend []).failed_categories =
        all_categories.filter (fun c => !(categorySucceeds backend c)) := by
  have hcats : categoriesToSearch [] = all_categories := by decide
  refine ⟨?_, ?_, hcats, ?_, ?_⟩
  · unfold categoriesToSearch
    rw [if_neg hnall, if_neg hne]
  · unfold categoriesToSearch
    rw [if_pos (List.mem_cons_self "all" selected)]
  · unfold perform_web_research
    rw [hcats]
    by_cases h : (runCategories backend all_categories).all_results = [] <;>
      simp [h, runCategories_successful]
  · unfold perform_web_research
    rw [hcats]
    by_cases h : (runCategories backend all_categories).all_results = [] <;>
      simp [h, runCategories_failed]

theorem empty_categories_full_catalog_witness :
    (["news"] : List String) ≠ [] ∧ "all" ∉ (["news"] : List String) ∧
      categoriesToSearch ["news"] = ["news"] ∧
      categoriesToSearch ("all" :: ["news"]) = all_categories ∧
      categoriesToSearch [] = all_categories ∧
      (perform_web_research failBackend []).successful_categories =
        all_categories.filter (categorySucceeds failBackend) ∧
      (perform_web_research failBackend []).failed_categories =
        all_categories.filter (fun c => !(categorySucceeds failBackend c)) :=
  ⟨by decide, by decide,
    empty_categories_full_catalog failBackend ["news"] (by decide) (by decide)⟩

section EscapeLemmas

theorem replC_append (pat : Char) (rep : List Char) (a b : List Char) :
    replC pat rep (a ++ b) = replC pat rep a ++ replC pat rep b := by
  induction a with
  | nil => simp [replC]
  | cons c cs ih => simp [replC, ih]

theorem escape_chars_nil {l : List Char}
    (h : replC '*' ['\\', '*'] (replC '_' ['\\', '_'] l) = []) : l = [] := by
  cases l with
  | nil => rfl
  | cons c cs =>
    exfalso
    by_cases h1 : c = '_'
    · simp [replC, h1, replC_append] at h
    · by_cases h2 : c = '*' <;> simp [replC, h1, h2, replC_append] at h

theorem escape_chars_head {l : List Char} {d : Char} {rest : List Char}
    (h : replC '*' ['\\', '*'] (replC '_' ['\\', '_'] l) = d :: rest) :
    d ≠ '_' ∧ d ≠ '*' := by
  cases l with
  | nil => simp [replC] at h
  | cons c cs =>
    by_cases h1 : c = '_'
    · simp [replC, h1, replC_append] at h
      obtain ⟨hd, _⟩ := h
      subst hd
      exact ⟨by decide, by decide⟩
    · by_cases h2 : c = '*'
      · simp [replC, h1, h2, replC_append] at h
        obtain ⟨hd, _⟩ := h
        subst hd
        exact ⟨by decide, by decide⟩
      · simp [replC, h1, h2, replC_append] at h
        obtain ⟨hd, _⟩ := h
        subst hd
        exact ⟨h1, h2⟩

theorem unescape_escape_chars (l : List Char) :
    unescapeChars (replC '*' ['\\', '*'] (replC '_' ['\\', '_'] l)) = l := by
  induction l with
  | nil => rfl
  | cons c cs ih =>
    by_cases h1 : c = '_'
    · subst h1
      have : replC '*' ['\\', '*'] (replC '_' ['\\', '_'] ('_' :: cs)) =
          '\\' :: '_' :: replC '*' ['\\', '*'] (replC '_' ['\\', '_'] cs) := by
        simp [replC, replC_append]
      rw [this]
      simp [unescapeChars, ih]
    · by_cases h2 : c = '*'
      · subst h2
        have : replC '*' ['\\', '*'] (replC '_' ['\\', '_'] ('*' :: cs)) =
            '\\' :: '*' :: replC '*' ['\\', '*'] (replC '_' ['\\', '_'] cs) := by
          simp [replC, replC_append]
        rw [this]
        simp [unescapeChars, ih]
      · have hE : replC '*' ['\\', '*'] (replC '_' ['\\', '_'] (c :: cs)) =
            c :: replC '*' ['\\', '*'] (replC '_' ['\\', '_'] cs) := by
          simp [replC, h1, h2, replC_append]
        rw [hE]
        cases hcs : replC '*' ['\\', '*'] (replC '_' ['\\', '_'] cs) with
        | nil =>
          rw [escape_chars_nil hcs]
          simp [unescapeChars]
        | cons d rest =>
          obtain ⟨hd1, hd2⟩ := escape_chars_head hcs
          have hcond : ¬ (c = '\\' ∧ (d = '_' ∨ d = '*')) := by
            rintro ⟨-, hd⟩
            rcases hd with hd | hd
            · exact hd1 hd
            · exact hd2 hd
          rw [unescapeChars, if_neg hcond, ← hcs, ih]

theorem prepareLoop_foldr (sel : List Nat) (items : List SerializedResult) (i : Nat) :
    prepareLoop sel i items =
      ((enumFrom i items).map
        (fun p => if p.1 ∈ sel then promptBlock p.2 else "")).foldr
          (fun a b => a ++ b) "" := by
  induction items generalizing i with
  | nil => rfl
  | cons x xs ih =>
    show (if i ∈ sel then _ else "") ++ prepareLoop sel (i + 1) xs = _
    rw [ih (i + 1)]
    rfl

end EscapeLemmas

/-- C9: escaping `_` and `*` (backslash-prefixing every occurrence, as
`escape_markdown_characters` does) followed by unescaping (removing a
backslash immediately before `_` or `*`) recovers any string exactly —
in particular one containing both characters; and
`prepare_content_for_gpt` applies the escaping to each selected result's
title and text while leaving its URL untouched (the emitted block is
`promptBlock`, whose URL field is the raw `item.url`). -/
theorem escape_roundtrip_urls_raw (s : String)
    (h1 : '_' ∈ s.data) (h2 : '*' ∈ s.data)
    (results : List SerializedResult) (sel : List Nat) :
    unescape_markdown_characters (escape_markdown_characters s) = s ∧
      prepare_content_for_gpt results sel =
        promptHeader ++
          ((enumFrom 1 results).map
            (fun p => if p.1 ∈ sel then promptBlock p.2 else "")).foldr
              (fun a b => a ++ b) "" := by
  constructor
  · show (⟨unescapeChars (escape_markdown_characters s).data⟩ : String) = s
    show (⟨unescapeChars (replC '*' ['\\', '*'] (replC '_' ['\\', '_'] s.data))⟩ : String) = s
    rw [unescape_escape_chars]
  · show promptHeader ++ prepareLoop sel 1 results = _
    rw [prepareLoop_foldr]

/-- Witness for C9 at a concrete string containing both `_` and `*` and
a concrete two-result, one-selection prompt. -/
theorem escape_roundtrip_urls_raw_witness :
    '_' ∈ ("a_b*c" : String).data ∧ '*' ∈ ("a_b*c" : String).data ∧
      (unescape_markdown_characters (escape_markdown_characters "a_b*c") = "a_b*c" ∧
        prepare_content_for_gpt
            [⟨"t_1", "https://x.test/_raw", "body*text"⟩] [1] =
          promptHeader ++
            ((enumFrom 1 [(⟨"t_1", "https://x.test/_raw", "body*text"⟩ : SerializedResult)]).map
              (fun p => if p.1 ∈ ([1] : List Nat) then promptBlock p.2 else "")).foldr
                (fun a b => a ++ b) "") :=
  ⟨by decide, by decide,
    escape_roundtrip_urls_raw "a_b*c" (by decide) (by decide)
      [⟨"t_1", "https://x.test/_raw", "body*text"⟩] [1]⟩

/-- C5: when the first chat response misses its title or meta
description line, `generate_article` consults the metadata follow-up
exactly once — and by construction never more than once for any input —
and when the follow-up still omits a field the returned draft simply
carries the empty string for it (the function still returns a draft, not
a failure). -/
theorem generate_article_bounded_backfill (first followup : String)
    (h : (extract_metadata first).1 = "" ∨ (extract_metadata first).2 = "") :
    (generate_article first followup).followup_calls = 1 ∧
      (∀ f g : String, (generate_article f g).followup_calls ≤ 1) ∧
      ((extract_metadata first).1 = "" → (extract_metadata followup).1 = "" →
        (generate_article first followup).title = "") ∧
      ((extract_metadata first).2 = "" → (extract_metadata followup).2 = "" →
        (generate_article first followup).meta_description = "") := by
  refine ⟨?_, ?_, ?_, ?_⟩
  · unfold generate_article
    rw [if_pos h]
  · intro f g
    unfold generate_article
    by_cases hc : (extract_metadata f).1 = "" ∨ (extract_metadata f).2 = ""
    · rw [if_pos hc]
    · rw [if_neg hc]
      exact Nat.zero_le 1
  · intro ht hf
    unfold generate_article
    rw [if_pos h]
    simp [ht, hf]
  · intro ht hf
    unfold generate_article
    rw [if_pos h]
    simp [ht, hf]

/-- Witness for C5: a first response with no metadata lines and a
follow-up that also has none. -/
theorem generate_article_bounded_backfill_witness :
    ((extract_metadata "just prose").1 = "" ∨ (extract_metadata "just prose").2 = "") ∧
      (generate_article "just prose" "still prose").followup_calls = 1 ∧
      (∀ f g : String, (generate_article f g).followup_calls ≤ 1) ∧
      ((extract_metadata "just prose").1 = "" → (extract_metadata "still prose").1 = "" →
        (generate_article "just prose" "still prose").title = "") ∧
      ((extract_metadata "just prose").2 = "" → (extract_metadata "still prose").2 = "" →
        (generate_article "just prose" "still prose").meta_description = "") :=
  ⟨by decide, generate_article_bounded_backfill "just prose" "still prose" (by decide)⟩

section QuoteLemmas

theorem head_dropWhile_false {α : Type} (p : α → Bool) (l : List α) {c : α}
    (h : (l.dropWhile p).head? = some c) : p c = false := by
  induction l with
  | nil => simp at h
  | cons a as ih =>
    by_cases ha : p a
    · rw [List.dropWhile_cons_of_pos ha] at h
      exact ih h
    · rw [List.dropWhile_cons_of_neg ha] at h
      simp at h
      rw [← h]
      simpa using ha

theorem getLast_dropWhile_mem {α : Type} (p : α → Bool) (l : List α) {c : α}
    (h : (l.dropWhile p).getLast? = some c) : l.getLast? = some c := by
  induction l with
  | nil => simp at h
  | cons a as ih =>
    by_cases ha : p a
    · rw [List.dropWhile_cons_of_pos ha] at h
      have has : as ≠ [] := by
        intro hnil
        rw [hnil] at h
        simp at h
      have hcons : (a :: as).getLast? = as.getLast? := by
        cases as with
        | nil => exact absurd rfl has
        | cons b bs => simp [List.getLast?_cons_cons]
      rw [hcons]
      exact ih h
    · rw [List.dropWhile_cons_of_neg ha] at h
      exact h

theorem stripBoth_head {p : Char → Bool} {l : List Char} {c : Char}
    (h : (stripBoth p l).head? = some c) : p c = false := by
  unfold stripBoth at h
  rw [List.head?_reverse] at h
  have h2 := getLast_dropWhile_mem p _ h
  rw [List.getLast?_reverse] at h2
  exact head_dropWhile_false p _ h2

theorem stripBoth_getLast {p : Char → Bool} {l : List Char} {c : Char}
    (h : (stripBoth p l).getLast? = some c) : p c = false := by
  unfold stripBoth at h
  rw [List.getLast?_reverse] at h
  exact head_dropWhile_false p _ h

/-- Boundary property: no double quote survives at either end. -/
def QuoteFree (v : List Char) : Prop :=
  v.head? ≠ some '"' ∧ v.getLast? ≠ some '"'

theorem pyStripQuotes_quoteFree (l : List Char) : QuoteFree (pyStripQuotes l) := by
  constructor
  · intro h
    have := stripBoth_head h
    simp at this
  · intro h
    have := stripBoth_getLast h
    simp at this

theorem metaLineUpdate_quoteFree (l t m : List Char)
    (ht : QuoteFree t) (hm : QuoteFree m) :
    QuoteFree (metaLineUpdate l t m).1 ∧ QuoteFree (metaLineUpdate l t m).2 := by
  simp only [metaLineUpdate]
  split_ifs with h1 h2
  · exact ⟨pyStripQuotes_quoteFree _, hm⟩
  · exact ⟨ht, pyStripQuotes_quoteFree _⟩
  · exact ⟨ht, hm⟩

theorem extractMetaLoop_quoteFree (ls : List (List Char)) (t m : List Char)
    (ht : QuoteFree t) (hm : QuoteFree m) :
    QuoteFree (extractMetaLoop ls t m).1 ∧ QuoteFree (extractMetaLoop ls t m).2 := by
  induction ls generalizing t m with
  | nil => exact ⟨ht, hm⟩
  | cons l ls ih =>
    rw [extractMetaLoop]
    obtain ⟨hu1, hu2⟩ := metaLineUpdate_quoteFree l t m ht hm
    by_cases hb : (metaLineUpdate l t m).1 ≠ [] ∧ (metaLineUpdate l t m).2 ≠ []
    · rw [if_pos hb]
      exact ⟨hu1, hu2⟩
    · rw [if_neg hb]
      exact ih _ _ hu1 hu2

end QuoteLemmas

/-- C10 counterexample: the extraction does not strip just one layer of
surrounding quotes — on `Title: ""X""` the code yields `X`, while
one-layer stripping would yield `"X"`. -/
theorem extract_metadata_not_one_layer :
    (extract_metadata "Title: \"\"X\"\"").1 = "X" ∧ ("X" : String) ≠ "\"X\"" :=
  ⟨by decide, by decide⟩

/-- C10 amended: the extraction strips ALL leading and trailing double
quotes from each extracted value after trimming whitespace — `Title:
"X"` yields `X`, `Title: ""X""` also yields `X`, and for every input the
extracted title and meta description never begin or end with a double
quote. -/
theorem extract_metadata_strips_all_quotes (s : String) :
    (extract_metadata "Title: \"X\"").1 = "X" ∧
      (extract_metadata "Title: \"\"X\"\"").1 = "X" ∧
      (extract_metadata s).1.data.head? ≠ some '"' ∧
      (extract_metadata s).1.data.getLast? ≠ some '"' ∧
      (extract_metadata s).2.data.head? ≠ some '"' ∧
      (extract_metadata s).2.data.getLast? ≠ some '"' := by
  have h := extractMetaLoop_quoteFree (linesOf s.data) [] []
    (by constructor <;> simp [QuoteFree]) (by constructor <;> simp [QuoteFree])
  exact ⟨by decide, by decide, h.1.1, h.1.2, h.2.1, h.2.2⟩

/-- Witness for C10's amended claim at a concrete doubly-quoted input. -/
theorem extract_metadata_strips_all_quotes_witness :
    (extract_metadata "Title: \"X\"").1 = "X" ∧
      (extract_metadata "Title: \"\"X\"\"").1 = "X" ∧
      (extract_metadata "Title: \"\"X\"\"").1.data.head? ≠ some '"' ∧
      (extract_metadata "Title: \"\"X\"\"").1.data.getLast? ≠ some '"' ∧
      (extract_metadata "Title: \"\"X\"\"").2.data.head? ≠ some '"' ∧
      (extract_metadata "Title: \"\"X\"\"").2.data.getLast? ≠ some '"' :=
  extract_metadata_strips_all_quotes "Title: \"\"X\"\""

section ConverterLemmas

set_option maxRecDepth 8000

theorem processLine_wp_blocks (st : ConvState) (l : List Char) :
    (processLine st l).wp_blocks = st.wp_blocks ++ lineEmits st l := by
  simp only [processLine, lineEmits]
  split_ifs <;> simp

theorem processLines_wp_blocks (ls : List (List Char)) (st : ConvState) :
    (processLines st ls).wp_blocks = st.wp_blocks ++ (traceEmits st ls).flatten := by
  induction ls generalizing st with
  | nil => simp [processLines, traceEmits]
  | cons l ls ih =>
    show (processLines (processLine st l) ls).wp_blocks = _
    rw [ih, processLine_wp_blocks, traceEmits]
    simp

end ConverterLemmas

/-- C7: the content blocks are emitted in source-line order — the block
list after the loop is exactly the concatenation, line by line in input
order, of what each line emits, followed only by the end-of-input flush
of a pending paragraph; no content block is reordered, duplicated or
dropped.  (The metadata summary `metadataBlocks` the source prepends to
the serialized output renders the accumulated metadata, which the spec
keeps separate from the content-block sequence.) -/
theorem blocks_follow_source_order (s : String) :
    (convertState s).wp_blocks = (traceEmits initConvState (linesOf s.data)).flatten ∧
      convertBlocks s =
        ((traceEmits initConvState (linesOf s.data)).flatten ++
          (if (convertState s).current_paragraph ≠ [] then
            [paragraphBlock (formatParagraph (convertState s).current_paragraph)]
          else [])).map (fun b => (⟨b⟩ : String)) := by
  have h1 : (convertState s).wp_blocks = (traceEmits initConvState (linesOf s.data)).flatten := by
    show (processLines initConvState (linesOf s.data)).wp_blocks = _
    rw [processLines_wp_blocks]
    rfl
  refine ⟨h1, ?_⟩
  show (finalBlocks (convertState s)).map (fun b => (⟨b⟩ : String)) = _
  unfold finalBlocks
  rw [h1]

section ConcreteEval

set_option maxRecDepth 10000

/-- C6: on `"# T\n\nBody line\n\n## H2\n\nMore body\n"` the converter
emits exactly Heading(1, T), Paragraph(Body line), Heading(2, H2),
Paragraph(More body), in that order, and no metadata blocks. -/
theorem convert_heading_paragraph_sequence :
    (convertBlocks c6Input).map (fun b => classifyBlock b.data) =
        [ContentBlock.heading 1 "T", ContentBlock.paragraph "Body line",
          ContentBlock.heading 2 "H2", ContentBlock.paragraph "More body"] ∧
      convertBlocks c6Input =
        ["<!-- wp:heading level -->\n<h1 class=\"wp-block-heading\">T</h1>\n<!-- /wp:heading -->",
          "<!-- wp:paragraph -->\n<p>Body line</p>\n<!-- /wp:paragraph -->",
          "<!-- wp:heading -->\n<h2 class=\"wp-block-heading\">H2</h2>\n<!-- /wp:heading -->",
          "<!-- wp:paragraph -->\n<p>More body</p>\n<!-- /wp:paragraph -->"] ∧
      convertMetaBlocks c6Input = [] :=
  ⟨by decide, by decide, by decide⟩

/-- C3 (code-bug evidence): on the C3 input the converter extracts the
title `Foo` and emits one paragraph whose rich text carries the anchor
to `http://x.test` labeled `link` — but the accumulated meta description
is `": Bar"`, not `"Bar"`: the tested prefix `Meta Description:` is 17
characters while the value is sliced with `line[16:]`, keeping the
colon (the sibling `extract_metadata` removes the full prefix, so the
spec's `Bar` is the evident intent and the slice an off-by-one). -/
theorem convert_meta_slice_off_by_one :
    (⟨(convertState c3Input).title⟩ : String) = "Foo" ∧
      (⟨(convertState c3Input).meta_description⟩ : String) = ": Bar" ∧
      (⟨(convertState c3Input).meta_description⟩ : String) ≠ "Bar" ∧
      convertBlocks c3Input =
        ["<!-- wp:paragraph -->\n<p>Hello <a class=\"general-link\" href=\"http://x.test\" target=\"_blank\" rel=\"noopener\">link</a> world</p>\n<!-- /wp:paragraph -->"] ∧
      (convertBlocks c3Input).map (fun b => classifyBlock b.data) =
        [ContentBlock.paragraph
          "Hello <a class=\"general-link\" href=\"http://x.test\" target=\"_blank\" rel=\"noopener\">link</a> world"] ∧
      pyContains (linkAnchor "link".data "http://x.test".data)
        (formatParagraph [("Hello [link](http://x.test) world".data)]) = true :=
  ⟨by decide, by decide, by decide, by decide, by decide, by decide⟩

end ConcreteEval
